import Mathlib

/-!
Shallow embedding of the voting demo backend (src/main.py).

The program has three cores:
* `ConnectionManager` — an in-memory map from product id (topic) to the list
  of open WebSocket channels, with `connect`, `disconnect` and `broadcast`;
* `cast_vote` — the vote endpoint: validates status and option, increments
  one counter, persists, broadcasts, returns the updated counts;
* `create_product` — the admin creation endpoint that initialises the
  voting document.

Channels are modelled as natural-number identifiers; Python dicts become
association lists with unique keys (dict semantics: lookup/update of the
first matching key, insertion at the end); datetimes become integers
(seconds), so `timedelta(hours=h)` is `h * 3600`.  A channel send that may
raise is modelled by a failure predicate `fails : Nat → Bool`; the code
swallows every such exception.
-/

/-- The registry state of `ConnectionManager.active`:
`dict[str, list[WebSocket]]`. -/
abbrev Registry := List (String × List Nat)

/-- Dict lookup `active.get(pid)`: first entry with the key. -/
def lookupR : Registry → String → Option (List Nat)
  | [], _ => none
  | e :: r, pid => if e.1 = pid then some e.2 else lookupR r pid

/-- Dict update `active[pid] = l` for a key already present: replaces the
first entry with that key, keeps everything else. -/
def setR : Registry → String → List Nat → Registry
  | [], _, _ => []
  | e :: r, pid, l => if e.1 = pid then (pid, l) :: r else e :: setR r pid l

/-- Dict deletion `del active[pid]`: removes the first entry with the key. -/
def eraseKey : Registry → String → Registry
  | [], _ => []
  | e :: r, pid => if e.1 = pid then r else e :: eraseKey r pid

/-- `ConnectionManager.connect`: `self.active.setdefault(pid, []).append(ws)`.
If the topic is present the channel is appended to its list, otherwise a new
entry holding just this channel is inserted at the end of the dict. -/
def connect (pid : String) (ws : Nat) (r : Registry) : Registry :=
  match lookupR r pid with
  | some conns => setR r pid (conns ++ [ws])
  | none => r ++ [(pid, [ws])]

/-- `ConnectionManager.disconnect`:
`conns = active.get(pid, [])`; `if ws in conns: conns.remove(ws)`;
`if not conns and pid in active: del active[pid]`.
`list.remove` drops the first occurrence only. -/
def disconnect (pid : String) (ws : Nat) (r : Registry) : Registry :=
  let conns := (lookupR r pid).getD []
  let conns2 := if ws ∈ conns then conns.erase ws else conns
  if conns2.isEmpty then
    if (lookupR r pid).isSome then eraseKey r pid else r
  else
    setR r pid conns2

/-- The snapshot `list(self.active.get(pid, []))` that `broadcast` iterates. -/
def channelsFor (r : Registry) (pid : String) : List Nat :=
  (lookupR r pid).getD []

/-- The JSON envelope pushed to each channel. -/
structure WsMessage where
  type : String
  product_id : String
  counts : List (String × Int)
  deriving Repr, DecidableEq

/-- `ConnectionManager.broadcast`: one `send_json` attempt per channel in the
snapshot; an exception (`fails ws = true`) is swallowed (`except: pass`), so
the attempt list never depends on which sends fail.  Each attempt is recorded
as the channel together with whether its send succeeded. -/
def broadcast (fails : Nat → Bool) (r : Registry) (pid : String)
    (_msg : WsMessage) : List (Nat × Bool) :=
  (channelsFor r pid).map (fun ws => (ws, !fails ws))

/-! ### Counts dictionaries -/

/-- The per-product `counts` dict: vote option to tally. -/
abbrev Counts := List (String × Int)

/-- `counts.get(k)` / `k in counts`. -/
def lookupC : Counts → String → Option Int
  | [], _ => none
  | e :: c, k => if e.1 = k then some e.2 else lookupC c k

/-- `counts[k] = v`: updates the first entry with key `k` in place, or
appends a fresh entry if the key is absent (dict assignment). -/
def setC : Counts → String → Int → Counts
  | [], k, v => [(k, v)]
  | e :: c, k, v => if e.1 = k then (k, v) :: c else e :: setC c k v

/-! ### The vote endpoint -/

/-- The closed `VoteOption` enumeration (a pydantic `Literal`). -/
def voteOptions : List String :=
  ["auction", "buy_now", "tokenization", "raffle", "not_interested"]

/-- The `VoteIn` request body. -/
structure VoteIn where
  option : String
  desired_shares : Option Int
  desired_tickets : Option Int
  deriving Repr, DecidableEq

/-- Pydantic validation of `VoteIn`: `option` is one of the literal values,
and each quantity hint, when present, satisfies `ge=1`. -/
def VoteIn.valid (v : VoteIn) : Prop :=
  v.option ∈ voteOptions ∧
    (∀ n, v.desired_shares = some n → 1 ≤ n) ∧
    (∀ n, v.desired_tickets = some n → 1 ≤ n)

/-- The part of the stored product document that `cast_vote` reads and
writes: everything else is passed through untouched. -/
structure Product where
  status : String
  counts : Counts
  deriving Repr, DecidableEq

/-- The error taxonomy of the endpoint (`HTTPException`s it raises). -/
inductive VoteError where
  | notFound
  | invalidState
  | invalidArgument
  deriving Repr, DecidableEq

/-- The HTTP status code each error is surfaced with. -/
def VoteError.httpStatus : VoteError → Nat
  | .notFound => 404
  | .invalidState => 400
  | .invalidArgument => 400

/-- The 200 response body `data` of a successful vote. -/
structure VoteResp where
  ok : Bool
  counts : Counts
  deriving Repr, DecidableEq

/-- Everything one `cast_vote` call does once the product document has been
loaded: the persisted product state after the call, the broadcast delivery
attempts, the broadcast message (if one was emitted) and the HTTP result. -/
structure CastOutcome where
  product : Product
  attempts : List (Nat × Bool)
  msg : Option WsMessage
  result : Except VoteError VoteResp
  deriving Repr

/-- `cast_vote` (src/main.py lines 164–205), from the point where the product
document has been fetched: reject unless `status == "in_voting"`; reject an
option that is not a key of `counts`; otherwise increment
`counts[option] = int(counts.get(option, 0)) + 1`, persist the new counts,
broadcast them (exceptions swallowed) and return `ok` with the counts. -/
def cast_vote (fails : Nat → Bool) (reg : Registry) (product_id : String)
    (p : Product) (v : VoteIn) : CastOutcome :=
  if p.status ≠ "in_voting" then
    ⟨p, [], none, .error .invalidState⟩
  else if (lookupC p.counts v.option).isNone then
    ⟨p, [], none, .error .invalidArgument⟩
  else
    let counts2 := setC p.counts v.option ((lookupC p.counts v.option).getD 0 + 1)
    let m : WsMessage := ⟨"votes.update", product_id, counts2⟩
    { product := ⟨p.status, counts2⟩
      attempts := broadcast fails reg product_id m
      msg := some m
      result := .ok ⟨true, counts2⟩ }

/-! ### The creation endpoint -/

/-- `DEFAULT_WINDOW_HOURS = int(os.getenv("VOTE_WINDOW_HOURS", "72"))`:
the value when the environment variable is unset. -/
def DEFAULT_WINDOW_HOURS : Int := 72

/-- The `ProductIn` request body of `POST /api/admin/products`. -/
structure ProductIn where
  title : String
  description : Option String
  images : List String
  auction_start_price : Option Rat
  buy_now_price : Option Rat
  shares_total : Option Int
  share_price : Option Rat
  raffle_tickets_total : Option Int
  raffle_ticket_price : Option Rat
  vote_start_at : Option Int
  deriving Repr

/-- The document `create_product` builds and stores. -/
structure ProductDoc where
  locales : List (String × String × Option String)
  images : List String
  auction_start_price : Option Rat
  buy_now_price : Option Rat
  shares_total : Option Int
  share_price : Option Rat
  raffle_tickets_total : Option Int
  raffle_ticket_price : Option Rat
  vote_start_at : Int
  vote_end_at : Int
  status : String
  counts : Counts
  deriving Repr

/-- The zero-initialised counts dict of a fresh product. -/
def initialCounts : Counts :=
  [("auction", 0), ("buy_now", 0), ("tokenization", 0),
   ("raffle", 0), ("not_interested", 0)]

/-- `create_product` (src/main.py lines 104–136): defaults `vote_start_at`
to `now`, computes `vote_end_at = vote_start_at + timedelta(hours=window)`,
and stores the document with status `in_voting` and zeroed counts. -/
def create_product (windowHours : Int) (now : Int) (payload : ProductIn) :
    ProductDoc :=
  let vsa := payload.vote_start_at.getD now
  let vea := vsa + windowHours * 3600
  { locales :=
      [("ro", payload.title, payload.description),
       ("en", payload.title, payload.description),
       ("it", payload.title, payload.description)]
    images := payload.images
    auction_start_price := payload.auction_start_price
    buy_now_price := payload.buy_now_price
    shares_total := payload.shares_total
    share_price := payload.share_price
    raffle_tickets_total := payload.raffle_tickets_total
    raffle_ticket_price := payload.raffle_ticket_price
    vote_start_at := vsa
    vote_end_at := vea
    status := "in_voting"
    counts := initialCounts }

/-! ### Vote sequences (for the broadcast-monotonicity property) -/

/-- Runs a sequence of `cast_vote` calls against the same product, threading
the persisted product state and collecting the broadcast messages emitted
(failed calls change nothing and emit nothing). -/
def runVotes (fails : Nat → Bool) (reg : Registry) (product_id : String) :
    Product → List VoteIn → Product × List WsMessage
  | p, [] => (p, [])
  | p, v :: vs =>
    let o := cast_vote fails reg product_id p v
    let rest := runVotes fails reg product_id o.product vs
    (rest.1, o.msg.toList ++ rest.2)

/-- Pointwise order on counts dicts: every option's tally (0 when absent)
in the first is at most its tally in the second. -/
def countsLe (c1 c2 : Counts) : Prop :=
  ∀ k, (lookupC c1 k).getD 0 ≤ (lookupC c2 k).getD 0

/-! ### Registry predicates and iterated registration -/

/-- Registers a list of channels under one topic, in order. -/
def connectAll (pid : String) (chs : List Nat) (r : Registry) : Registry :=
  chs.foldl (fun acc ws => connect pid ws acc) r

/-- No topic entry holds an empty channel list (the registry invariant the
spec states: a key is present iff its channel set is non-empty). -/
def noEmpty (r : Registry) : Prop :=
  ∀ e ∈ r, e.2 ≠ []

/-- The association list has pairwise distinct keys, as a Python dict does. -/
def nodupKeys (r : Registry) : Prop :=
  (r.map Prod.fst).Nodup

/-! ## Lemmas about the registry operations -/

theorem lookupR_setR_self (r : Registry) (pid : String) (l : List Nat) :
    lookupR (setR r pid l) pid =
      if (lookupR r pid).isSome then some l else none := by
  induction r with
  | nil => simp [setR, lookupR]
  | cons e r ih =>
    by_cases h : e.1 = pid
    · simp [setR, lookupR, h]
    · simp [setR, lookupR, h, ih]

theorem lookupR_setR_ne (r : Registry) (pid q : String) (l : List Nat)
    (h : q ≠ pid) : lookupR (setR r pid l) q = lookupR r q := by
  induction r with
  | nil => simp [setR, lookupR]
  | cons e r ih =>
    by_cases he : e.1 = pid
    · simp [setR, lookupR, he, Ne.symm h]
    · by_cases hq : e.1 = q
      · simp [setR, lookupR, he, hq, h]
      · simp [setR, lookupR, he, hq, ih]

theorem lookupR_append_none (r1 r2 : Registry) (pid : String)
    (h : lookupR r1 pid = none) :
    lookupR (r1 ++ r2) pid = lookupR r2 pid := by
  induction r1 with
  | nil => simp [lookupR]
  | cons e r ih =>
    by_cases he : e.1 = pid
    · simp [lookupR, he] at h
    · simp only [lookupR, he] at h
      simp [lookupR, he, ih h]

theorem lookupR_mem (r : Registry) (pid : String) (l : List Nat)
    (h : lookupR r pid = some l) : (pid, l) ∈ r := by
  induction r with
  | nil => simp [lookupR] at h
  | cons e r ih =>
    by_cases he : e.1 = pid
    · simp only [lookupR, he, if_pos] at h
      cases h
      exact List.mem_cons.mpr (Or.inl (by rw [← he]))
    · simp only [lookupR, he] at h
      exact List.mem_cons_of_mem _ (ih (by simpa using h))

theorem lookupR_eq_none_of_not_mem (r : Registry) (pid : String)
    (h : pid ∉ r.map Prod.fst) : lookupR r pid = none := by
  induction r with
  | nil => rfl
  | cons e r ih =>
    simp only [List.map_cons, List.mem_cons] at h
    push_neg at h
    simp [lookupR, Ne.symm h.1, ih h.2]

theorem setR_self_eq (r : Registry) (pid : String) (l : List Nat)
    (hk : nodupKeys r) (h : lookupR r pid = some l) : setR r pid l = r := by
  induction r with
  | nil => rfl
  | cons e r ih =>
    by_cases he : e.1 = pid
    · simp only [lookupR, he, if_pos] at h
      cases h
      simp only [setR, he, if_pos]
      calc (pid, e.2) :: r = (e.1, e.2) :: r := by rw [he]
        _ = e :: r := rfl
    · simp only [lookupR, he, if_neg, ite_false] at h
      have hk2 : nodupKeys r := by
        simpa [nodupKeys] using (List.nodup_cons.mp hk).2
      simp [setR, he, ih hk2 h]

theorem mem_eraseKey (r : Registry) (pid : String) (e : String × List Nat)
    (h : e ∈ eraseKey r pid) : e ∈ r := by
  induction r with
  | nil => simp [eraseKey] at h
  | cons f r ih =>
    by_cases hf : f.1 = pid
    · simp only [eraseKey, hf, if_pos] at h
      exact List.mem_cons_of_mem _ h
    · simp only [eraseKey, hf, if_neg, ite_false] at h
      rcases List.mem_cons.mp h with h | h
      · exact h ▸ List.mem_cons_self _ _
      · exact List.mem_cons_of_mem _ (ih h)

theorem lookupR_eraseKey_self (r : Registry) (pid : String)
    (hk : nodupKeys r) : lookupR (eraseKey r pid) pid = none := by
  induction r with
  | nil => rfl
  | cons e r ih =>
    have hk1 : e.1 ∉ r.map Prod.fst := (List.nodup_cons.mp hk).1
    have hk2 : nodupKeys r := by
      simpa [nodupKeys] using (List.nodup_cons.mp hk).2
    by_cases he : e.1 = pid
    · simp only [eraseKey, he, if_pos]
      exact lookupR_eq_none_of_not_mem r pid (he ▸ hk1)
    · simp [eraseKey, lookupR, he, ih hk2]

theorem setR_append_last (r : Registry) (pid : String) (l l2 : List Nat)
    (h : lookupR r pid = none) :
    setR (r ++ [(pid, l)]) pid l2 = r ++ [(pid, l2)] := by
  induction r with
  | nil => simp [setR]
  | cons e r ih =>
    by_cases he : e.1 = pid
    · simp [lookupR, he] at h
    · simp only [lookupR, he, ite_false, if_neg] at h
      simp [setR, he, ih h]

theorem eraseKey_append_last (r : Registry) (pid : String) (l : List Nat)
    (h : lookupR r pid = none) :
    eraseKey (r ++ [(pid, l)]) pid = r := by
  induction r with
  | nil => simp [eraseKey]
  | cons e r ih =>
    by_cases he : e.1 = pid
    · simp [lookupR, he] at h
    · simp only [lookupR, he, ite_false, if_neg] at h
      simp [eraseKey, he, ih h]

theorem lookupR_connect_self (r : Registry) (pid : String) (ws : Nat) :
    lookupR (connect pid ws r) pid =
      some ((lookupR r pid).getD [] ++ [ws]) := by
  unfold connect
  cases h : lookupR r pid with
  | some conns => simp [lookupR_setR_self, h]
  | none => simp [lookupR_append_none r _ pid h, lookupR]

theorem connectAll_append (pid : String) (cs : List Nat) (r : Registry)
    (h : lookupR r pid = none) :
    ∀ l, connectAll pid cs (r ++ [(pid, l)]) = r ++ [(pid, l ++ cs)] := by
  induction cs with
  | nil => intro l; simp [connectAll]
  | cons c cs ih =>
    intro l
    have hlook : lookupR (r ++ [(pid, l)]) pid = some l := by
      rw [lookupR_append_none r _ pid h]; simp [lookupR]
    have hstep : connect pid c (r ++ [(pid, l)]) = r ++ [(pid, l ++ [c])] := by
      unfold connect
      rw [hlook]
      exact setR_append_last r pid l (l ++ [c]) h
    calc connectAll pid (c :: cs) (r ++ [(pid, l)])
        = connectAll pid cs (connect pid c (r ++ [(pid, l)])) := by
          simp [connectAll]
      _ = connectAll pid cs (r ++ [(pid, l ++ [c])]) := by rw [hstep]
      _ = r ++ [(pid, (l ++ [c]) ++ cs)] := ih (l ++ [c])
      _ = r ++ [(pid, l ++ c :: cs)] := by simp

theorem connectAll_fresh (pid : String) (cs : List Nat) (r : Registry)
    (h : lookupR r pid = none) (hcs : cs ≠ []) :
    connectAll pid cs r = r ++ [(pid, cs)] := by
  cases cs with
  | nil => exact absurd rfl hcs
  | cons c cs =>
    have hstep : connect pid c r = r ++ [(pid, [c])] := by
      unfold connect; rw [h]
    calc connectAll pid (c :: cs) r
        = connectAll pid cs (connect pid c r) := by simp [connectAll]
      _ = connectAll pid cs (r ++ [(pid, [c])]) := by rw [hstep]
      _ = r ++ [(pid, [c] ++ cs)] := connectAll_append pid cs r h [c]
      _ = r ++ [(pid, c :: cs)] := by simp

theorem disconnect_none (r : Registry) (pid : String) (ws : Nat)
    (h : lookupR r pid = none) : disconnect pid ws r = r := by
  simp [disconnect, h]

theorem disconnect_some_empty (r : Registry) (pid : String) (ws : Nat)
    (conns : List Nat) (h : lookupR r pid = some conns)
    (h2 : (if ws ∈ conns then conns.erase ws else conns) = []) :
    disconnect pid ws r = eraseKey r pid := by
  simp only [disconnect, h, Option.getD_some, Option.isSome_some]
  rw [h2]
  simp

theorem disconnect_some_nonempty (r : Registry) (pid : String) (ws : Nat)
    (conns : List Nat) (h : lookupR r pid = some conns)
    (h2 : (if ws ∈ conns then conns.erase ws else conns) ≠ []) :
    disconnect pid ws r =
      setR r pid (if ws ∈ conns then conns.erase ws else conns) := by
  simp only [disconnect, h, Option.getD_some, Option.isSome_some]
  rw [if_neg]
  simpa [List.isEmpty_iff] using h2

theorem mem_setR (r : Registry) (pid : String) (l : List Nat)
    (e : String × List Nat) (h : e ∈ setR r pid l) :
    e ∈ r ∨ e = (pid, l) := by
  induction r with
  | nil => simp [setR] at h
  | cons f r ih =>
    by_cases hf : f.1 = pid
    · simp only [setR, hf, if_pos] at h
      rcases List.mem_cons.mp h with h | h
      · exact Or.inr h
      · exact Or.inl (List.mem_cons_of_mem _ h)
    · simp only [setR, hf, ite_false, if_neg] at h
      rcases List.mem_cons.mp h with h | h
      · exact Or.inl (h ▸ List.mem_cons_self _ _)
      · rcases ih h with h | h
        · exact Or.inl (List.mem_cons_of_mem _ h)
        · exact Or.inr h

theorem noEmpty_connect (r : Registry) (pid : String) (ws : Nat)
    (h : noEmpty r) : noEmpty (connect pid ws r) := by
  unfold connect
  cases hl : lookupR r pid with
  | some conns =>
    intro e he
    rcases mem_setR r pid (conns ++ [ws]) e he with h2 | h2
    · exact h e h2
    · rw [h2]; simp
  | none =>
    intro e he
    rcases List.mem_append.mp he with h2 | h2
    · exact h e h2
    · simp only [List.mem_singleton] at h2
      rw [h2]; simp

theorem noEmpty_disconnect (r : Registry) (pid : String) (ws : Nat)
    (h : noEmpty r) : noEmpty (disconnect pid ws r) := by
  cases hl : lookupR r pid with
  | none => rw [disconnect_none r pid ws hl]; exact h
  | some conns =>
    by_cases h2 : (if ws ∈ conns then conns.erase ws else conns) = []
    · rw [disconnect_some_empty r pid ws conns hl h2]
      intro e hme
      exact h e (mem_eraseKey r pid e hme)
    · rw [disconnect_some_nonempty r pid ws conns hl h2]
      intro e hme
      rcases mem_setR _ _ _ _ hme with h3 | h3
      · exact h e h3
      · rw [h3]; exact h2

/-! ## Lemmas about counts dictionaries -/

theorem lookupC_setC_self (c : Counts) (k : String) (v : Int) :
    lookupC (setC c k v) k = some v := by
  induction c with
  | nil => simp [setC, lookupC]
  | cons e c ih =>
    by_cases he : e.1 = k
    · simp [setC, lookupC, he]
    · simp [setC, lookupC, he, ih]

theorem lookupC_setC_ne (c : Counts) (k k2 : String) (v : Int)
    (h : k2 ≠ k) : lookupC (setC c k v) k2 = lookupC c k2 := by
  induction c with
  | nil => simp [setC, lookupC, Ne.symm h]
  | cons e c ih =>
    by_cases he : e.1 = k
    · simp [setC, lookupC, he, Ne.symm h]
    · by_cases hk2 : e.1 = k2
      · simp [setC, lookupC, he, hk2, h]
      · simp [setC, lookupC, he, hk2, ih]

/-! ## Lemmas about the vote endpoint -/

theorem cast_vote_invalidState_eq (fails : Nat → Bool) (reg : Registry)
    (product_id : String) (p : Product) (v : VoteIn)
    (hst : p.status ≠ "in_voting") :
    cast_vote fails reg product_id p v =
      ⟨p, [], none, .error .invalidState⟩ := by
  simp [cast_vote, hst]

theorem cast_vote_invalidArgument_eq (fails : Nat → Bool) (reg : Registry)
    (product_id : String) (p : Product) (v : VoteIn)
    (hst : p.status = "in_voting") (hopt : lookupC p.counts v.option = none) :
    cast_vote fails reg product_id p v =
      ⟨p, [], none, .error .invalidArgument⟩ := by
  simp [cast_vote, hst, hopt]

theorem cast_vote_success_eq (fails : Nat → Bool) (reg : Registry)
    (product_id : String) (p : Product) (v : VoteIn) (n : Int)
    (hst : p.status = "in_voting") (hopt : lookupC p.counts v.option = some n) :
    cast_vote fails reg product_id p v =
      { product := ⟨p.status, setC p.counts v.option (n + 1)⟩
        attempts := broadcast fails reg product_id
          ⟨"votes.update", product_id, setC p.counts v.option (n + 1)⟩
        msg := some ⟨"votes.update", product_id, setC p.counts v.option (n + 1)⟩
        result := .ok ⟨true, setC p.counts v.option (n + 1)⟩ } := by
  simp [cast_vote, hst, hopt]

theorem countsLe_refl (c : Counts) : countsLe c c := fun _ => le_refl _

theorem countsLe_trans (c1 c2 c3 : Counts) (h1 : countsLe c1 c2)
    (h2 : countsLe c2 c3) : countsLe c1 c3 :=
  fun k => le_trans (h1 k) (h2 k)

theorem countsLe_setC_incr (c : Counts) (k : String) (n : Int)
    (h : lookupC c k = some n) : countsLe c (setC c k (n + 1)) := by
  intro k2
  by_cases hk : k2 = k
  · subst hk
    rw [h, lookupC_setC_self]
    simp
  · rw [lookupC_setC_ne c k k2 _ hk]

theorem cast_vote_counts_le (fails : Nat → Bool) (reg : Registry)
    (product_id : String) (p : Product) (v : VoteIn) :
    countsLe p.counts (cast_vote fails reg product_id p v).product.counts := by
  by_cases hst : p.status = "in_voting"
  · cases hopt : lookupC p.counts v.option with
    | none =>
      rw [cast_vote_invalidArgument_eq fails reg product_id p v hst hopt]
      exact countsLe_refl _
    | some n =>
      rw [cast_vote_success_eq fails reg product_id p v n hst hopt]
      exact countsLe_setC_incr p.counts v.option n hopt
  · rw [cast_vote_invalidState_eq fails reg product_id p v hst]
    exact countsLe_refl _

theorem cast_vote_msg_counts (fails : Nat → Bool) (reg : Registry)
    (product_id : String) (p : Product) (v : VoteIn) (m : WsMessage)
    (h : (cast_vote fails reg product_id p v).msg = some m) :
    m.counts = (cast_vote fails reg product_id p v).product.counts := by
  by_cases hst : p.status = "in_voting"
  · cases hopt : lookupC p.counts v.option with
    | none =>
      rw [cast_vote_invalidArgument_eq fails reg product_id p v hst hopt] at h
      simp at h
    | some n =>
      rw [cast_vote_success_eq fails reg product_id p v n hst hopt] at h ⊢
      simp only [Option.some.injEq] at h
      rw [← h]
  · rw [cast_vote_invalidState_eq fails reg product_id p v hst] at h
    simp at h

theorem runVotes_msgs_le (fails : Nat → Bool) (reg : Registry)
    (product_id : String) : ∀ (vs : List VoteIn) (p : Product),
    ∀ m ∈ (runVotes fails reg product_id p vs).2, countsLe p.counts m.counts := by
  intro vs
  induction vs with
  | nil => intro p m hm; simp [runVotes] at hm
  | cons v vs ih =>
    intro p m hm
    simp only [runVotes] at hm
    rcases List.mem_append.mp hm with hm | hm
    · have hmsg : (cast_vote fails reg product_id p v).msg = some m := by
        cases ho : (cast_vote fails reg product_id p v).msg with
        | none => rw [ho] at hm; simp at hm
        | some m2 =>
          rw [ho] at hm
          simp only [Option.toList_some, List.mem_singleton] at hm
          rw [hm]
      rw [cast_vote_msg_counts fails reg product_id p v m hmsg]
      exact cast_vote_counts_le fails reg product_id p v
    · exact countsLe_trans _ _ _
        (cast_vote_counts_le fails reg product_id p v)
        (ih (cast_vote fails reg product_id p v).product m hm)

theorem runVotes_chain (fails : Nat → Bool) (reg : Registry)
    (product_id : String) : ∀ (vs : List VoteIn) (p : Product),
    List.Chain' (fun m1 m2 => countsLe m1.counts m2.counts)
      (runVotes fails reg product_id p vs).2 := by
  intro vs
  induction vs with
  | nil => intro p; simp [runVotes]
  | cons v vs ih =>
    intro p
    simp only [runVotes]
    cases ho : (cast_vote fails reg product_id p v).msg with
    | none =>
      simpa using ih (cast_vote fails reg product_id p v).product
    | some m =>
      simp only [Option.toList_some, List.singleton_append]
      rw [List.chain'_cons']
      constructor
      · intro m2 hm2
        have hmem : m2 ∈
            (runVotes fails reg product_id
              (cast_vote fails reg product_id p v).product vs).2 :=
          List.mem_of_mem_head? hm2
        have hle := runVotes_msgs_le fails reg product_id vs
          (cast_vote fails reg product_id p v).product m2 hmem
        rw [cast_vote_msg_counts fails reg product_id p v m ho]
        exact hle
      · exact ih (cast_vote fails reg product_id p v).product

/-! ## Claim theorems -/

/-- C1: for a product whose status is "in_voting" and a vote whose option is
a key of the product's counts dict, `cast_vote` increments that option's
counter by exactly 1, leaves every other option's counter unchanged, and
returns the updated counts mapping (with ok) to the caller. -/
theorem cast_vote_increments (fails : Nat → Bool) (reg : Registry)
    (product_id : String) (p : Product) (v : VoteIn) (n : Int)
    (hst : p.status = "in_voting")
    (hopt : lookupC p.counts v.option = some n) :
    lookupC (cast_vote fails reg product_id p v).product.counts v.option
        = some (n + 1) ∧
    (∀ k, k ≠ v.option →
      lookupC (cast_vote fails reg product_id p v).product.counts k
        = lookupC p.counts k) ∧
    (cast_vote fails reg product_id p v).result =
      .ok ⟨true, (cast_vote fails reg product_id p v).product.counts⟩ := by
  rw [cast_vote_success_eq fails reg product_id p v n hst hopt]
  exact ⟨lookupC_setC_self _ _ _,
    fun k hk => lookupC_setC_ne p.counts v.option k _ hk, rfl⟩

theorem cast_vote_increments_witness :
    lookupC (cast_vote (fun _ => false) [] "p"
        ⟨"in_voting", initialCounts⟩ ⟨"raffle", none, none⟩).product.counts
        "raffle" = some 1 ∧
    lookupC (cast_vote (fun _ => false) [] "p"
        ⟨"in_voting", initialCounts⟩ ⟨"raffle", none, none⟩).product.counts
        "auction" = lookupC initialCounts "auction" := by
  have h := cast_vote_increments (fun _ => false) [] "p"
    ⟨"in_voting", initialCounts⟩ ⟨"raffle", none, none⟩ 0 rfl rfl
  exact ⟨by simpa using h.1, h.2.1 "auction" (by decide)⟩

/-- C2: on a product whose status is anything other than "in_voting",
`cast_vote` fails with InvalidState (an HTTP 400 error), the product's
counts are not mutated, and nothing is broadcast. -/
theorem cast_vote_wrong_status (fails : Nat → Bool) (reg : Registry)
    (product_id : String) (p : Product) (v : VoteIn)
    (hst : p.status ≠ "in_voting") :
    (cast_vote fails reg product_id p v).result = .error .invalidState ∧
    VoteError.invalidState.httpStatus = 400 ∧
    (cast_vote fails reg product_id p v).product = p ∧
    (cast_vote fails reg product_id p v).msg = none := by
  rw [cast_vote_invalidState_eq fails reg product_id p v hst]
  exact ⟨rfl, rfl, rfl, rfl⟩

theorem cast_vote_wrong_status_witness :
    (cast_vote (fun _ => false) [] "p" ⟨"draft", initialCounts⟩
        ⟨"raffle", none, none⟩).result = .error .invalidState ∧
    (cast_vote (fun _ => false) [] "p" ⟨"draft", initialCounts⟩
        ⟨"raffle", none, none⟩).product = ⟨"draft", initialCounts⟩ :=
  have h := cast_vote_wrong_status (fun _ => false) [] "p"
    ⟨"draft", initialCounts⟩ ⟨"raffle", none, none⟩ (by decide)
  ⟨h.1, h.2.2.1⟩

/-- C3: a vote whose option is not a key of the product's counts dict (the
product being in its voting window, the earlier status check having passed)
fails with InvalidArgument (an HTTP 400 error) and the counts are not
mutated. -/
theorem cast_vote_unknown_option (fails : Nat → Bool) (reg : Registry)
    (product_id : String) (p : Product) (v : VoteIn)
    (hst : p.status = "in_voting")
    (hopt : lookupC p.counts v.option = none) :
    (cast_vote fails reg product_id p v).result = .error .invalidArgument ∧
    VoteError.invalidArgument.httpStatus = 400 ∧
    (cast_vote fails reg product_id p v).product = p ∧
    (cast_vote fails reg product_id p v).msg = none := by
  rw [cast_vote_invalidArgument_eq fails reg product_id p v hst hopt]
  exact ⟨rfl, rfl, rfl, rfl⟩

theorem cast_vote_unknown_option_witness :
    (cast_vote (fun _ => false) [] "p" ⟨"in_voting", initialCounts⟩
        ⟨"bogus", none, none⟩).result = .error .invalidArgument ∧
    (cast_vote (fun _ => false) [] "p" ⟨"in_voting", initialCounts⟩
        ⟨"bogus", none, none⟩).product = ⟨"in_voting", initialCounts⟩ :=
  have h := cast_vote_unknown_option (fun _ => false) [] "p"
    ⟨"in_voting", initialCounts⟩ ⟨"bogus", none, none⟩ rfl (by decide)
  ⟨h.1, h.2.2.1⟩

/-- C7: over any sequence of `cast_vote` calls against the same product, the
counts carried by the successive broadcast messages are monotonically
non-decreasing per option; concretely, two raffle votes on a fresh product
end with raffle at 2, every other counter untouched, and emit exactly two
messages carrying raffle at 1 and then 2. -/
theorem broadcast_counts_monotone (fails : Nat → Bool) (reg : Registry)
    (product_id : String) (p : Product) (vs : List VoteIn) :
    List.Chain' (fun m1 m2 => countsLe m1.counts m2.counts)
      (runVotes fails reg product_id p vs).2 ∧
    (runVotes (fun _ => false) [("p1", [5])] "p1" ⟨"in_voting", initialCounts⟩
        [⟨"raffle", none, none⟩, ⟨"raffle", none, none⟩]).1.counts =
      [("auction", 0), ("buy_now", 0), ("tokenization", 0), ("raffle", 2),
       ("not_interested", 0)] ∧
    (runVotes (fun _ => false) [("p1", [5])] "p1" ⟨"in_voting", initialCounts⟩
        [⟨"raffle", none, none⟩, ⟨"raffle", none, none⟩]).2 =
      [⟨"votes.update", "p1",
        [("auction", 0), ("buy_now", 0), ("tokenization", 0), ("raffle", 1),
         ("not_interested", 0)]⟩,
       ⟨"votes.update", "p1",
        [("auction", 0), ("buy_now", 0), ("tokenization", 0), ("raffle", 2),
         ("not_interested", 0)]⟩] :=
  ⟨runVotes_chain fails reg product_id vs p, rfl, rfl⟩

/-- C8: a create-product request with no explicit vote_start_at yields a
document with status "in_voting", vote_start_at defaulted to now,
vote_end_at exactly the default 72-hour window after vote_start_at, and the
five-option zero counts dict. -/
theorem create_product_defaults (now : Int) (payload : ProductIn)
    (h : payload.vote_start_at = none) :
    (create_product DEFAULT_WINDOW_HOURS now payload).status = "in_voting" ∧
    (create_product DEFAULT_WINDOW_HOURS now payload).vote_start_at = now ∧
    (create_product DEFAULT_WINDOW_HOURS now payload).vote_end_at =
      (create_product DEFAULT_WINDOW_HOURS now payload).vote_start_at
        + 72 * 3600 ∧
    (create_product DEFAULT_WINDOW_HOURS now payload).counts =
      [("auction", 0), ("buy_now", 0), ("tokenization", 0), ("raffle", 0),
       ("not_interested", 0)] := by
  simp [create_product, h, DEFAULT_WINDOW_HOURS, initialCounts]

theorem create_product_defaults_witness :
    (create_product DEFAULT_WINDOW_HOURS 1700000000
        ⟨"chair", none, [], none, none, none, none, none, none, none⟩).status
      = "in_voting" ∧
    (create_product DEFAULT_WINDOW_HOURS 1700000000
        ⟨"chair", none, [], none, none, none, none, none, none, none⟩).vote_end_at
      = 1700000000 + 72 * 3600 :=
  have h := create_product_defaults 1700000000
    ⟨"chair", none, [], none, none, none, none, none, none, none⟩ rfl
  ⟨h.1, by rw [h.2.2.1, h.2.1]⟩

/-- C9: two validated vote requests that agree on the option but differ in
the desired_shares / desired_tickets quantity hints produce the very same
outcome of `cast_vote` — same persisted product, same broadcast attempts and
message, same response: the hints are validated but never read. -/
theorem quantity_hints_unobservable (fails : Nat → Bool) (reg : Registry)
    (product_id : String) (p : Product) (v1 v2 : VoteIn)
    (_h1 : v1.valid) (_h2 : v2.valid) (hopt : v1.option = v2.option) :
    cast_vote fails reg product_id p v1 = cast_vote fails reg product_id p v2 := by
  simp only [cast_vote, hopt]

theorem quantity_hints_unobservable_witness :
    cast_vote (fun _ => false) [] "p" ⟨"in_voting", initialCounts⟩
        ⟨"raffle", some 3, none⟩ =
      cast_vote (fun _ => false) [] "p" ⟨"in_voting", initialCounts⟩
        ⟨"raffle", none, some 7⟩ := by
  have hv1 : VoteIn.valid ⟨"raffle", some 3, none⟩ := by
    refine ⟨by decide, ?_, ?_⟩
    · intro n h
      cases h
      decide
    · intro n h
      cases h
  have hv2 : VoteIn.valid ⟨"raffle", none, some 7⟩ := by
    refine ⟨by decide, ?_, ?_⟩
    · intro n h
      cases h
    · intro n h
      cases h
      decide
  exact quantity_hints_unobservable (fun _ => false) [] "p"
    ⟨"in_voting", initialCounts⟩ _ _ hv1 hv2 rfl

/-- C4: the registry invariant — a topic key is present in the map iff its
channel collection is non-empty — is preserved by every connect and
disconnect, and when the last channel of a topic disconnects, the topic key
is deleted from the map. -/
theorem registry_invariant (pid : String) (ws : Nat) (r : Registry) :
    (noEmpty r → noEmpty (connect pid ws r)) ∧
    (noEmpty r → noEmpty (disconnect pid ws r)) ∧
    (noEmpty r → ∀ q : String,
      (lookupR r q).isSome = true ↔ channelsFor r q ≠ []) ∧
    (nodupKeys r → lookupR r pid = some [ws] →
      lookupR (disconnect pid ws r) pid = none) := by
  refine ⟨fun h => noEmpty_connect r pid ws h,
          fun h => noEmpty_disconnect r pid ws h, ?_, ?_⟩
  · intro h q
    constructor
    · intro hs
      rcases Option.isSome_iff_exists.mp hs with ⟨l, hl⟩
      have hne := h (q, l) (lookupR_mem r q l hl)
      simpa [channelsFor, hl] using hne
    · intro hne
      cases hl : lookupR r q with
      | none => simp [channelsFor, hl] at hne
      | some l => simp
  · intro hk hl
    have h2 : (if ws ∈ [ws] then ([ws] : List Nat).erase ws else [ws]) = [] := by
      simp
    rw [disconnect_some_empty r pid ws [ws] hl h2]
    exact lookupR_eraseKey_self r pid hk

theorem registry_invariant_witness :
    noEmpty (disconnect "a" 1 [("a", [1, 2])]) ∧
    lookupR (disconnect "a" 1 [("a", [1])]) "a" = none := by
  have hne : noEmpty [("a", [1, 2])] := by
    intro e he
    rcases List.mem_singleton.mp he with rfl
    simp
  have hk : nodupKeys [("a", ([1] : List Nat))] := by
    simp [nodupKeys]
  exact ⟨(registry_invariant "a" 1 [("a", [1, 2])]).2.1 hne,
         (registry_invariant "a" 1 [("a", [1])]).2.2.2 hk rfl⟩

/-- C5: broadcast failure isolation — which channel sends fail never changes
the set of channels attempted, nor the persisted product, nor the response
returned to the vote-casting caller; and whenever a broadcast message is
emitted, every channel in the registry snapshot receives a send attempt. -/
theorem broadcast_failure_isolated (fails fails2 : Nat → Bool)
    (reg : Registry) (product_id : String) (p : Product) (v : VoteIn) :
    (cast_vote fails reg product_id p v).result
        = (cast_vote fails2 reg product_id p v).result ∧
    (cast_vote fails reg product_id p v).product
        = (cast_vote fails2 reg product_id p v).product ∧
    (cast_vote fails reg product_id p v).attempts.map Prod.fst
        = (cast_vote fails2 reg product_id p v).attempts.map Prod.fst ∧
    (∀ m, (cast_vote fails reg product_id p v).msg = some m →
      ∀ c ∈ channelsFor reg product_id,
        (c, !fails c) ∈ (cast_vote fails reg product_id p v).attempts) := by
  by_cases hst : p.status = "in_voting"
  · cases hopt : lookupC p.counts v.option with
    | none =>
      rw [cast_vote_invalidArgument_eq fails reg product_id p v hst hopt,
          cast_vote_invalidArgument_eq fails2 reg product_id p v hst hopt]
      refine ⟨rfl, rfl, rfl, ?_⟩
      intro m hm
      simp at hm
    | some n =>
      rw [cast_vote_success_eq fails reg product_id p v n hst hopt,
          cast_vote_success_eq fails2 reg product_id p v n hst hopt]
      refine ⟨rfl, rfl, ?_, ?_⟩
      · simp [broadcast, List.map_map, Function.comp]
      · intro m hm c hc
        exact List.mem_map_of_mem _ hc
  · rw [cast_vote_invalidState_eq fails reg product_id p v hst,
        cast_vote_invalidState_eq fails2 reg product_id p v hst]
    refine ⟨rfl, rfl, rfl, ?_⟩
    intro m hm
    simp at hm

theorem broadcast_failure_isolated_witness :
    (cast_vote (fun c => c == 2) [("p", [1, 2, 3])] "p"
        ⟨"in_voting", initialCounts⟩ ⟨"raffle", none, none⟩).result
      = (cast_vote (fun _ => false) [("p", [1, 2, 3])] "p"
        ⟨"in_voting", initialCounts⟩ ⟨"raffle", none, none⟩).result ∧
    (3, true) ∈ (cast_vote (fun c => c == 2) [("p", [1, 2, 3])] "p"
        ⟨"in_voting", initialCounts⟩ ⟨"raffle", none, none⟩).attempts := by
  have h := broadcast_failure_isolated (fun c => c == 2) (fun _ => false)
    [("p", [1, 2, 3])] "p" ⟨"in_voting", initialCounts⟩ ⟨"raffle", none, none⟩
  refine ⟨h.1, ?_⟩
  have h2 := h.2.2.2 _ rfl 3 (by decide)
  simpa using h2

theorem channelsFor_disconnect_append (r : Registry) (pid : String)
    (ch : Nat) (chs : List Nat) (h : lookupR r pid = none) (hch : ch ∈ chs) :
    channelsFor (disconnect pid ch (r ++ [(pid, chs)])) pid = chs.erase ch := by
  have hlook : lookupR (r ++ [(pid, chs)]) pid = some chs := by
    rw [lookupR_append_none r _ pid h]
    simp [lookupR]
  by_cases he : chs.erase ch = []
  · have h2 : (if ch ∈ chs then chs.erase ch else chs) = [] := by
      rw [if_pos hch]
      exact he
    rw [disconnect_some_empty _ pid ch chs hlook h2,
        eraseKey_append_last r pid chs h]
    simp [channelsFor, h, he]
  · have h2 : (if ch ∈ chs then chs.erase ch else chs) ≠ [] := by
      rw [if_pos hch]
      exact he
    have hdis := disconnect_some_nonempty _ pid ch chs hlook h2
    rw [if_pos hch] at hdis
    rw [hdis, setR_append_last r pid chs (chs.erase ch) h]
    simp [channelsFor, lookupR_append_none r _ pid h, lookupR]

/-- C6: registering N distinct channels under one topic yields exactly N
delivery attempts per broadcast; after unregistering one of them a broadcast
makes N − 1 attempts, and the topic's channel count has decreased by exactly
1. -/
theorem register_then_broadcast_counts (fails : Nat → Bool) (m : WsMessage)
    (pid : String) (r : Registry) (chs : List Nat) (ch : Nat)
    (hfresh : lookupR r pid = none) (_hnd : chs.Nodup) (hch : ch ∈ chs) :
    (broadcast fails (connectAll pid chs r) pid m).length = chs.length ∧
    (broadcast fails (disconnect pid ch (connectAll pid chs r)) pid m).length
      = chs.length - 1 ∧
    (channelsFor (disconnect pid ch (connectAll pid chs r)) pid).length
      = (channelsFor (connectAll pid chs r) pid).length - 1 := by
  have hne : chs ≠ [] := List.ne_nil_of_mem hch
  have hall : connectAll pid chs r = r ++ [(pid, chs)] :=
    connectAll_fresh pid chs r hfresh hne
  have hcf : channelsFor (connectAll pid chs r) pid = chs := by
    rw [hall]
    simp [channelsFor, lookupR_append_none r _ pid hfresh, lookupR]
  have hcf2 : channelsFor (disconnect pid ch (connectAll pid chs r)) pid
      = chs.erase ch := by
    rw [hall]
    exact channelsFor_disconnect_append r pid ch chs hfresh hch
  have herase : (chs.erase ch).length = chs.length - 1 :=
    List.length_erase_of_mem hch
  refine ⟨?_, ?_, ?_⟩
  · simp [broadcast, hcf]
  · simp [broadcast, hcf2, herase]
  · rw [hcf, hcf2, herase]

theorem register_then_broadcast_counts_witness :
    (broadcast (fun _ => false) (connectAll "a" [1, 2, 3] []) "a"
        ⟨"votes.update", "a", []⟩).length = 3 ∧
    (broadcast (fun _ => false)
        (disconnect "a" 2 (connectAll "a" [1, 2, 3] [])) "a"
        ⟨"votes.update", "a", []⟩).length = 2 := by
  have h := register_then_broadcast_counts (fun _ => false)
    ⟨"votes.update", "a", []⟩ "a" [] [1, 2, 3] 2 rfl (by decide) (by decide)
  exact ⟨h.1, h.2.1⟩

/-- C10: the registry does not deduplicate — with the same channel
registered k ≥ 2 times under a topic, one disconnect removes exactly one
occurrence, so the channel stays registered k − 1 times and still receives
broadcast attempts; a disconnect for an unregistered topic, or for a channel
not registered under the topic, is a no-op. -/
theorem duplicate_registration (fails : Nat → Bool) (m : WsMessage)
    (pid : String) (ws : Nat) (r : Registry) (k : Nat) :
    (2 ≤ k → (channelsFor r pid).count ws = k →
      (channelsFor (disconnect pid ws r) pid).count ws = k - 1 ∧
      ws ∈ channelsFor (disconnect pid ws r) pid ∧
      (ws, !fails ws) ∈ broadcast fails (disconnect pid ws r) pid m) ∧
    (lookupR r pid = none → disconnect pid ws r = r) ∧
    (nodupKeys r → noEmpty r → ws ∉ channelsFor r pid →
      disconnect pid ws r = r) := by
  refine ⟨?_, fun h => disconnect_none r pid ws h, ?_⟩
  · intro hk hcount
    cases hl : lookupR r pid with
    | none =>
      rw [channelsFor, hl] at hcount
      simp at hcount
      omega
    | some conns =>
      have hconns : channelsFor r pid = conns := by simp [channelsFor, hl]
      rw [hconns] at hcount
      have hmem : ws ∈ conns := by
        apply List.count_pos_iff.mp
        omega
      have hcount2 : (conns.erase ws).count ws = k - 1 := by
        rw [List.count_erase_self, hcount]
      have hmem2 : ws ∈ conns.erase ws := by
        apply List.count_pos_iff.mp
        rw [hcount2]
        omega
      have hne2 : conns.erase ws ≠ [] := List.ne_nil_of_mem hmem2
      have h2 : (if ws ∈ conns then conns.erase ws else conns) ≠ [] := by
        rw [if_pos hmem]
        exact hne2
      have hdis : disconnect pid ws r = setR r pid (conns.erase ws) := by
        have h3 := disconnect_some_nonempty r pid ws conns hl h2
        rwa [if_pos hmem] at h3
      have hcf : channelsFor (disconnect pid ws r) pid = conns.erase ws := by
        rw [hdis]
        simp [channelsFor, lookupR_setR_self, hl]
      refine ⟨by rw [hcf]; exact hcount2, by rw [hcf]; exact hmem2, ?_⟩
      simp only [broadcast, hcf]
      exact List.mem_map_of_mem _ hmem2
  · intro hk hne hnm
    cases hl : lookupR r pid with
    | none => exact disconnect_none r pid ws hl
    | some conns =>
      have hconns : channelsFor r pid = conns := by simp [channelsFor, hl]
      rw [hconns] at hnm
      have hcne : conns ≠ [] := hne (pid, conns) (lookupR_mem r pid conns hl)
      have h2 : (if ws ∈ conns then conns.erase ws else conns) ≠ [] := by
        rw [if_neg hnm]
        exact hcne
      have hdis := disconnect_some_nonempty r pid ws conns hl h2
      rw [if_neg hnm] at hdis
      rw [hdis]
      exact setR_self_eq r pid conns hk hl

theorem duplicate_registration_witness :
    (channelsFor (disconnect "a" 1 [("a", [1, 1])]) "a").count 1 = 1 ∧
    disconnect "b" 9 [("a", [1, 1])] = [("a", [1, 1])] := by
  have h := duplicate_registration (fun _ => false) ⟨"votes.update", "a", []⟩
    "a" 1 [("a", [1, 1])] 2
  have h2 := duplicate_registration (fun _ => false) ⟨"votes.update", "a", []⟩
    "b" 9 [("a", [1, 1])] 0
  exact ⟨(h.1 (by decide) (by decide)).1, h2.2.1 rfl⟩
